import Mathlib

/-!
Shallow embedding of the renderer-side notes logic of cherry-studio:
the `NotesPage` component (`src/renderer/src/pages/notes/NotesPage.tsx`)
and the rich-editor suggestion behaviour covered by
`src/renderer/src/components/RichEditor/__tests__/commandSuggestion.test.ts`.

JavaScript strings are embedded as Lean `String`; the handful of
JS-string operations the code relies on (`startsWith`, `substring`,
`length`, truthiness of strings) are defined below over `String.data`,
so that a JS string is treated as its sequence of characters.

The stateful handlers are embedded as pure functions from their inputs
(component state read through hooks and refs) to a trace of the effects
they perform (service calls, cache invalidations, Redux dispatches,
log calls).  External service calls that can reject (`initWorkSpace`,
`window.api.file.write`) are modelled by a boolean oracle saying whether
the awaited call throws.
-/

/-- Embedding of JS `s.startsWith(pre)`: character-sequence prefix test. -/
def jsStartsWith (s pre : String) : Bool :=
  pre.data.isPrefixOf s.data

/-- Embedding of JS `s.substring(n)`: drop the first `n` characters. -/
def jsSubstringFrom (s : String) (n : Nat) : String :=
  ⟨s.data.drop n⟩

/-- Embedding of JS `s.length`: number of characters. -/
def jsLength (s : String) : Nat :=
  s.data.length

/-- Embedding of JS string truthiness: a string is falsy exactly when empty. -/
def jsTruthy (s : String) : Bool :=
  s != ""

/-- Embedding of JS `s.trim()`: remove leading and trailing whitespace
characters. -/
def jsTrim (s : String) : String :=
  ⟨((s.data.dropWhile Char.isWhitespace).reverse.dropWhile Char.isWhitespace).reverse⟩

/-!  Operation manager (`NotesPage.tsx`, `operationManager` memo).
The pending operations live in `pendingOperationsRef.current`, a JS
`Set<string>`, embedded as `Finset String`. -/

/-- The `addOperation` closure: `pendingOperationsRef.current.add(operationId)`. -/
def addOperation (pending : Finset String) (operationId : String) : Finset String :=
  insert operationId pending

/-- The `removeOperation` closure: `pendingOperationsRef.current.delete(operationId)`. -/
def removeOperation (pending : Finset String) (operationId : String) : Finset String :=
  pending.erase operationId

/-- The `hasPendingOperations` closure: `pendingOperationsRef.current.size > 0`. -/
def hasPendingOperations (pending : Finset String) : Bool :=
  0 < pending.card

/-- The `withOperation` closure: adds `operationId` to the pending set,
runs the operation (which observes the updated set through the ref),
and removes `operationId` in a `finally` block, so the removal happens
whether the operation resolves or rejects.  The returned pair is the
propagated outcome (`Except.error` embeds a rejected promise) and the
final pending set. -/
def withOperation {E T : Type} (pending : Finset String) (operationId : String)
    (operation : Finset String → Except E T) : Except E T × Finset String :=
  let started := addOperation pending operationId
  (operation started, removeOperation started operationId)

/-!  Saving (`NotesPage.tsx`, `saveCurrentNote` and `debouncedSave`). -/

/-- One observable effect of `saveCurrentNote`. -/
inductive SaveStep where
  /-- `window.api.file.write(targetPath, content)` was called. -/
  | write (path content : String)
  /-- `invalidateFileContent(targetPath)` was called. -/
  | invalidate (path : String)
  /-- `logger.error('Failed to save note:', ...)` was called. -/
  | logSaveError
  deriving DecidableEq, Repr

/-- Embedding of JS `filePath || activeFilePath` for optional strings:
the first operand wins unless it is absent or empty (falsy). -/
def firstTruthy (a b : Option String) : Option String :=
  match a with
  | some s => if s = "" then b else some s
  | none => b

/-- The `saveCurrentNote` callback.  `targetPath` is
`filePath || activeFilePath`; the function returns early when the
target path is falsy or the trimmed content equals the trimmed cached
`currentContent`; otherwise it writes and, when the write resolves,
invalidates the cached file content (a rejected write is logged). -/
def saveCurrentNote (activeFilePath : Option String) (currentContent : String)
    (content : String) (filePath : Option String) (writeThrows : Bool) : List SaveStep :=
  match firstTruthy filePath activeFilePath with
  | none => []
  | some targetPath =>
    if targetPath = "" then []
    else if jsTrim content = jsTrim currentContent then []
    else if writeThrows then [SaveStep.write targetPath content, SaveStep.logSaveError]
    else [SaveStep.write targetPath content, SaveStep.invalidate targetPath]

/-- The debounce delay, in milliseconds, of `debouncedSave`
(`debounce((content, filePath) => { saveCurrentNote(...) }, 800)`). -/
def debouncedSaveDelayMs : Nat := 800

/-!  File-watcher handler (`NotesPage.tsx`, `handleFileChange`). -/

/-- The payload delivered by `window.api.file.onFileChange`. -/
structure FileChangeEvent where
  eventType : String
  filePath : String
  deriving DecidableEq, Repr

/-- One observable effect of `handleFileChange`, in order of occurrence. -/
inductive Step where
  /-- `isSyncingTreeRef.current = b`. -/
  | setSyncing (b : Bool)
  /-- `initWorkSpace(notesPath, sortType)` was called. -/
  | initWorkSpace (notesPath sortType : String)
  /-- `invalidateFileContent(filePath)` was called. -/
  | invalidate (path : String)
  /-- `dispatch(setActiveFilePath(p))` was called. -/
  | dispatchActiveFilePath (p : Option String)
  /-- `logger.debug(msg, ...)` was called. -/
  | logDebug (msg : String)
  /-- `logger.error(msg, ...)` was called. -/
  | logError (msg : String)
  deriving DecidableEq, Repr

/-- `['add', 'addDir', 'unlink', 'unlinkDir'].includes(eventType)`. -/
def isStructuralEvent (eventType : String) : Bool :=
  ["add", "addDir", "unlink", "unlinkDir"].contains eventType

/-- The `handleFileChange` handler, as the trace of effects it performs.
Inputs are the state it reads: `notesPath` (checked for truthiness on
entry), the Redux `sortType` and `activeFilePath`, and the pending
operation set.  `initWorkSpaceThrows` says whether an awaited
`initWorkSpace` call rejects.  Notes on the source:
* structural events are skipped while operations are pending;
* in the `'change'` case with `activeFilePath === filePath` the whole
  `try` body is commented out in the source, so nothing observable
  happens (the `catch` that calls `invalidateFileContent` is dead code);
* in the `'change'` case on another path, a rejected `initWorkSpace`
  escapes to the outer `catch` and is logged there;
* in the structural cases, a rejected `initWorkSpace` is logged by the
  inner `catch` and the `finally` still clears the syncing flag. -/
def handleFileChange (notesPath : Option String) (sortType : String)
    (activeFilePath : Option String) (pending : Finset String)
    (ev : FileChangeEvent) (initWorkSpaceThrows : Bool) : List Step :=
  match notesPath with
  | none => []
  | some np =>
    if np = "" then []
    else if isStructuralEvent ev.eventType && hasPendingOperations pending then
      [Step.logDebug "Skipping structural file event during pending operations:"]
    else if ev.eventType = "change" then
      if activeFilePath = some ev.filePath then []
      else
        Step.initWorkSpace np sortType ::
          (if initWorkSpaceThrows then [Step.logError "Failed to handle file change:"] else [])
    else if isStructuralEvent ev.eventType then
      (if (ev.eventType = "unlink" ∨ ev.eventType = "unlinkDir")
          ∧ activeFilePath = some ev.filePath
        then [Step.dispatchActiveFilePath none] else []) ++
      [Step.setSyncing true, Step.initWorkSpace np sortType] ++
      (if initWorkSpaceThrows then [Step.logError "Failed to sync database:"] else []) ++
      [Step.setSyncing false]
    else
      [Step.logDebug "Unhandled file event type:"]

/-- Whether a trace performs none of the effects the pending-operation
guard is meant to suppress: no workspace resync, no cache invalidation,
no dispatched state change. -/
def suppressed (trace : List Step) : Bool :=
  trace.all fun s =>
    match s with
    | Step.initWorkSpace _ _ => false
    | Step.invalidate _ => false
    | Step.dispatchActiveFilePath _ => false
    | _ => true

/-!  Note tree (`NotesTreeNode` from `@renderer/types/note`, used by
`NotesPage.tsx`).  Only the fields the embedded handlers read are kept:
`id`, `name`, `type` (`'file'` or `'folder'` as a string), `externalPath`
and `children`.  A TS node whose `children` is `undefined` is embedded
with `children = []`: `findNodeById` guards with `if (node.children)`,
and recursing into an empty list returns `null` either way. -/

inductive NotesTreeNode where
  | mk (id : String) (name : String) (type : String) (externalPath : String)
      (children : List NotesTreeNode) : NotesTreeNode
  deriving Repr

/-- Field `node.id`. -/
def NotesTreeNode.id : NotesTreeNode → String
  | .mk i _ _ _ _ => i

/-- Field `node.name`. -/
def NotesTreeNode.name : NotesTreeNode → String
  | .mk _ n _ _ _ => n

/-- Field `node.type`. -/
def NotesTreeNode.type : NotesTreeNode → String
  | .mk _ _ t _ _ => t

/-- Field `node.externalPath`. -/
def NotesTreeNode.externalPath : NotesTreeNode → String
  | .mk _ _ _ p _ => p

/-- Field `node.children`. -/
def NotesTreeNode.children : NotesTreeNode → List NotesTreeNode
  | .mk _ _ _ _ c => c

@[simp] theorem NotesTreeNode.id_mk (i n t p : String) (c : List NotesTreeNode) :
    (NotesTreeNode.mk i n t p c).id = i := rfl

@[simp] theorem NotesTreeNode.name_mk (i n t p : String) (c : List NotesTreeNode) :
    (NotesTreeNode.mk i n t p c).name = n := rfl

@[simp] theorem NotesTreeNode.type_mk (i n t p : String) (c : List NotesTreeNode) :
    (NotesTreeNode.mk i n t p c).type = t := rfl

@[simp] theorem NotesTreeNode.externalPath_mk (i n t p : String) (c : List NotesTreeNode) :
    (NotesTreeNode.mk i n t p c).externalPath = p := rfl

@[simp] theorem NotesTreeNode.children_mk (i n t p : String) (c : List NotesTreeNode) :
    (NotesTreeNode.mk i n t p c).children = c := rfl

/-- The `findNodeById` callback: iterate over the list of roots; return a
node whose `id` matches, otherwise search its children recursively,
otherwise move to the next sibling; `null` (embedded `none`) if nothing
matches. -/
def findNodeById : List NotesTreeNode → String → Option NotesTreeNode
  | [], _ => none
  | n :: rest, nodeId =>
    if n.id = nodeId then some n
    else
      match findNodeById n.children nodeId with
      | some found => some found
      | none => findNodeById rest nodeId
termination_by tree _ => sizeOf tree
decreasing_by
  all_goals cases n
  all_goals simp
  all_goals omega

/-- Depth-first preorder flattening of a forest: each node is listed
before its children, children before later siblings. -/
def preorderList : List NotesTreeNode → List NotesTreeNode
  | [] => []
  | n :: rest => n :: (preorderList n.children ++ preorderList rest)
termination_by tree => sizeOf tree
decreasing_by
  all_goals cases n
  all_goals simp
  all_goals omega

/-!  Rename handler (`NotesPage.tsx`, `handleRenameNode`). -/

/-- Outcome of `handleRenameNode`: whether the `renameNode` service was
invoked, and the `activeFilePath` after the handler (reflecting any
`dispatch(setActiveFilePath(...))`). -/
structure RenameOutcome where
  renamed : Bool
  activeFilePath : Option String
  deriving DecidableEq, Repr

/-- The `handleRenameNode` callback.  It looks the node up in the tree
and returns without renaming when the node is missing or its `name`
already equals `newName`.  Otherwise it calls the `renameNode` service
(not part of these sources; its resolved value is the `renamedNode`
argument) and updates `activeFilePath`: to the renamed file's new
`externalPath` when a file at the active path was renamed; remapped
under the new folder path when a folder prefix (followed by `'/'`) of
the active path was renamed; unchanged otherwise.  `relativePath` is
`activeFilePath.substring(oldExternalPath.length)`, which keeps the
leading `'/'`. -/
def handleRenameNode (tree : List NotesTreeNode) (nodeId newName : String)
    (activeFilePath : Option String) (renamedNode : NotesTreeNode) : RenameOutcome :=
  match findNodeById tree nodeId with
  | none => ⟨false, activeFilePath⟩
  | some node =>
    if node.name = newName then ⟨false, activeFilePath⟩
    else
      let oldExternalPath := node.externalPath
      if renamedNode.type = "file" ∧ activeFilePath = some oldExternalPath then
        ⟨true, some renamedNode.externalPath⟩
      else
        match activeFilePath with
        | none => ⟨true, activeFilePath⟩
        | some afp =>
          if renamedNode.type = "folder" ∧ jsTruthy afp = true
              ∧ jsStartsWith afp (oldExternalPath ++ "/") = true then
            let relativePath := jsSubstringFrom afp (jsLength oldExternalPath)
            ⟨true, some (renamedNode.externalPath ++ relativePath)⟩
          else ⟨true, activeFilePath⟩

/-!  Rich-editor suggestion behaviour.  The implementations
(`RichEditor/command.ts` and `RichEditor/QuickPanel`) are not part of
these sources; only their test file
(`__tests__/commandSuggestion.test.ts`) is.  The definitions below are
therefore modelled from the spec and checked against the behaviour the
tests pin down. -/

/-- The keyboard event fields `commandSuggestion.onKeyDown` inspects. -/
structure SuggestionKeyEvent where
  key : String
  shiftKey : Bool
  deriving DecidableEq, Repr

/-- Observable outcome of one `commandSuggestion.onKeyDown` call:
the returned boolean, whether `event.preventDefault()` was called, and
the contents passed to `chain().focus().insertContent(...).run()`
editor calls, one list entry per chain. -/
structure KeyDownOutcome where
  handled : Bool
  preventDefaultCalled : Bool
  editorInsertions : List String
  deriving DecidableEq, Repr

/-- Modelled from the spec: the slash-command suggestion handler
`commandSuggestion.onKeyDown` of `RichEditor/command.ts` is missing from
the sources (only its test file is present).  Per the spec's
"rich-text editor with slash-command suggestions" and the test file:
on Shift+Enter it prevents the default action, inserts the string
`"\n"` through one `chain().focus().insertContent('\n').run()` call and
returns `true`; on any other key it does nothing and returns `false`. -/
def commandSuggestionOnKeyDown (ev : SuggestionKeyEvent) : KeyDownOutcome :=
  if ev.key = "Enter" ∧ ev.shiftKey = true then
    { handled := true, preventDefaultCalled := true, editorInsertions := ["\n"] }
  else
    { handled := false, preventDefaultCalled := false, editorInsertions := [] }

/-- Modelled from the spec: helper for the quick-panel search-text
deletion; returns the index of the last occurrence of character `c`
strictly before position `stop` in `text` (the JS
`text.lastIndexOf(c, stop - 1)` scan). -/
def lastIndexOfBefore (text : List Char) (c : Char) : Nat → Option Nat
  | 0 => none
  | n + 1 => if text[n]? = some c then some n else lastIndexOfBefore text c n

/-- Modelled from the spec: the character that triggered a quick panel,
for the panels whose trigger is typed into the input; panels opened with
the mentions symbol `"@"` or the commands symbol `"/"` have one, every
other panel kind (`"thinking"`, `"?"`, `"#"`, `"quick-phrases"`,
`"mcp"`, `"mcp-prompt"`, `"mcp-resource"`) has none. -/
def deletableSymbolChar (symbol : String) : Option Char :=
  if symbol = "@" then some '@'
  else if symbol = "/" then some '/'
  else none

/-- Modelled from the spec: the quick panel's `clearSearchText`
(`RichEditor/QuickPanel`, absent from the sources; only its test file is
present).  On item selection (Enter) or dismissal (Escape), for a panel
opened with `"@"` or `"/"` it deletes the span from the last occurrence
of the trigger character before the caret up to the caret — the current
symbol's search text — and returns the new input text to pass to
`setInputText`; for any other symbol it returns `none` and
`setInputText` is never called.  `text` is the input text as its
character sequence, `caret` the caret position. -/
def clearSearchText (symbol : String) (text : List Char) (caret : Nat) : Option (List Char) :=
  match deletableSymbolChar symbol with
  | none => none
  | some c =>
    match lastIndexOfBefore text c caret with
    | none => none
    | some i => some (text.take i ++ text.drop caret)

/-!  Theorems. -/

/-- Helper: the effect trace of `handleFileChange` on a structural event
that is not suppressed by the pending-operation guard. -/
theorem handleFileChange_structural_eq (np sortType : String)
    (activeFilePath : Option String) (pending : Finset String)
    (ev : FileChangeEvent) (initThrows : Bool)
    (hnp : np ≠ "")
    (hpending : hasPendingOperations pending = false)
    (hstructural : isStructuralEvent ev.eventType = true) :
    handleFileChange (some np) sortType activeFilePath pending ev initThrows =
      (if (ev.eventType = "unlink" ∨ ev.eventType = "unlinkDir")
          ∧ activeFilePath = some ev.filePath
        then [Step.dispatchActiveFilePath none] else []) ++
      [Step.setSyncing true, Step.initWorkSpace np sortType] ++
      (if initThrows then [Step.logError "Failed to sync database:"] else []) ++
      [Step.setSyncing false] := by
  have hch : ev.eventType ≠ "change" := by
    intro h
    rw [h] at hstructural
    simp [isStructuralEvent] at hstructural
  simp [handleFileChange, hnp, hpending, hstructural, hch]

/-- C4 counterexample: when the operationId is already pending, a
completed `withOperation` call does not leave the set as it found it —
the `finally` deletion also removes the pre-existing occurrence. -/
theorem withOperation_duplicate_counterexample :
    (withOperation ({"op"} : Finset String) "op"
        (fun _ => (Except.ok 0 : Except String Nat))).2 ≠ ({"op"} : Finset String) := by
  simp [withOperation, addOperation, removeOperation]
  exact fun h => Finset.singleton_ne_empty "op" h.symm

/-- C4 (amended): `withOperation` adds the operationId to the pending
set before running the operation (the operation observes the enlarged
set), propagates the operation's outcome whether it resolves or
rejects, and in both cases ends with the operationId removed; when the
operationId was not already pending, the set is left exactly as found. -/
theorem withOperation_pending_set (E T : Type) (pending : Finset String)
    (operationId : String) (operation : Finset String → Except E T) :
    (withOperation pending operationId operation).1 = operation (insert operationId pending) ∧
    (withOperation pending operationId operation).2 = (insert operationId pending).erase operationId ∧
    operationId ∉ (withOperation pending operationId operation).2 ∧
    (operationId ∉ pending → (withOperation pending operationId operation).2 = pending) := by
  refine ⟨rfl, rfl, ?_, ?_⟩
  · simp [withOperation, addOperation, removeOperation]
  · intro h
    simp [withOperation, addOperation, removeOperation, Finset.erase_insert h]

/-- C4 witness: a concrete run of `withOperation` on an empty pending
set ends with the set empty again. -/
theorem withOperation_pending_set_witness :
    (withOperation (∅ : Finset String) "renameNode:1:a"
        (fun _ => (Except.ok 0 : Except String Nat))).2 = ∅ :=
  (withOperation_pending_set String Nat ∅ "renameNode:1:a"
    (fun _ => Except.ok 0)).2.2.2 (by simp)

/-- C2: `saveCurrentNote` performs no effect exactly when the target
path (`filePath || activeFilePath`) is absent or empty or the trimmed
content equals the trimmed cached content; otherwise (with the write
resolving) it writes the content to the target path and then
invalidates that path's cached file content; and the save triggered by
editing is debounced by 800 ms. -/
theorem saveCurrentNote_write_conditions (activeFilePath : Option String)
    (currentContent content : String) (filePath : Option String) :
    (∀ writeThrows,
      saveCurrentNote activeFilePath currentContent content filePath writeThrows = [] ↔
        firstTruthy filePath activeFilePath = none
          ∨ firstTruthy filePath activeFilePath = some ""
          ∨ jsTrim content = jsTrim currentContent) ∧
    (∀ targetPath, firstTruthy filePath activeFilePath = some targetPath → targetPath ≠ "" →
      jsTrim content ≠ jsTrim currentContent →
      saveCurrentNote activeFilePath currentContent content filePath false =
        [SaveStep.write targetPath content, SaveStep.invalidate targetPath]) ∧
    debouncedSaveDelayMs = 800 := by
  refine ⟨?_, ?_, rfl⟩
  · intro writeThrows
    cases hft : firstTruthy filePath activeFilePath with
    | none => simp [saveCurrentNote, hft]
    | some tp =>
      simp only [saveCurrentNote, hft]
      split_ifs with h1 h2 h3 <;> simp_all
  · intro targetPath hft hne htrim
    simp [saveCurrentNote, hft, hne, htrim]

/-- C2 witness: a concrete save with a target path and changed content
writes and invalidates. -/
theorem saveCurrentNote_write_conditions_witness :
    saveCurrentNote (some "/notes/a.md") "old text" "new text" none false =
      [SaveStep.write "/notes/a.md" "new text", SaveStep.invalidate "/notes/a.md"] :=
  (saveCurrentNote_write_conditions (some "/notes/a.md") "old text" "new text" none).2.1
    "/notes/a.md" rfl (by decide) (by decide)

/-- C1 counterexample: with a pending operation, a `'change'` event on a
path other than the active file is not suppressed — `handleFileChange`
still calls `initWorkSpace` (its guard only covers structural events). -/
theorem handleFileChange_pending_counterexample :
    hasPendingOperations ({"createNote:foo"} : Finset String) = true ∧
    suppressed (handleFileChange (some "/notes") "sort_a2z" (some "/notes/a.md")
      ({"createNote:foo"} : Finset String) ⟨"change", "/notes/b.md"⟩ false) = false := by
  exact ⟨rfl, rfl⟩

/-- C1 (amended): while the pending-operations set is non-empty, every
incoming structural file-watcher event (`'add'`, `'addDir'`,
`'unlink'`, `'unlinkDir'`) is suppressed: `handleFileChange` returns
without calling `initWorkSpace`, without invalidating cached file
content and without dispatching any state change. -/
theorem handleFileChange_suppresses_structural (notesPath : Option String) (sortType : String)
    (activeFilePath : Option String) (pending : Finset String) (ev : FileChangeEvent)
    (initThrows : Bool)
    (hpending : hasPendingOperations pending = true)
    (hstructural : isStructuralEvent ev.eventType = true) :
    suppressed (handleFileChange notesPath sortType activeFilePath pending ev initThrows)
      = true := by
  cases notesPath with
  | none => rfl
  | some np =>
    by_cases hnp : np = "" <;>
      simp [handleFileChange, hnp, hpending, hstructural, suppressed]

/-- C1 witness: a concrete structural event during a pending operation
is suppressed. -/
theorem handleFileChange_suppresses_structural_witness :
    suppressed (handleFileChange (some "/notes") "sort_a2z" (some "/notes/a.md")
      ({"createNote:foo"} : Finset String) ⟨"unlink", "/notes/a.md"⟩ false) = true :=
  handleFileChange_suppresses_structural (some "/notes") "sort_a2z" (some "/notes/a.md")
    ({"createNote:foo"} : Finset String) ⟨"unlink", "/notes/a.md"⟩ false rfl rfl

/-- C3: on a structural event that is not suppressed, `handleFileChange`
sets the tree-syncing flag, resyncs the workspace via `initWorkSpace`
with the current notes path and sort type, and clears the flag
afterwards — also when the resync throws, in which case the error is
logged by the inner catch and not propagated (the handler still
produces the same flag transitions). -/
theorem handleFileChange_structural_resync (np sortType : String)
    (activeFilePath : Option String) (pending : Finset String)
    (ev : FileChangeEvent) (initThrows : Bool)
    (hnp : np ≠ "")
    (hpending : hasPendingOperations pending = false)
    (hstructural : isStructuralEvent ev.eventType = true) :
    handleFileChange (some np) sortType activeFilePath pending ev initThrows =
      (if (ev.eventType = "unlink" ∨ ev.eventType = "unlinkDir")
          ∧ activeFilePath = some ev.filePath
        then [Step.dispatchActiveFilePath none] else []) ++
      [Step.setSyncing true, Step.initWorkSpace np sortType] ++
      (if initThrows then [Step.logError "Failed to sync database:"] else []) ++
      [Step.setSyncing false] :=
  handleFileChange_structural_eq np sortType activeFilePath pending ev initThrows
    hnp hpending hstructural

/-- C3 witness: a concrete `'addDir'` event with a throwing resync still
sets and clears the flag around the `initWorkSpace` call. -/
theorem handleFileChange_structural_resync_witness :
    handleFileChange (some "/notes") "sort_a2z" (some "/notes/a.md") (∅ : Finset String)
        ⟨"addDir", "/notes/sub"⟩ true =
      [Step.setSyncing true, Step.initWorkSpace "/notes" "sort_a2z",
        Step.logError "Failed to sync database:", Step.setSyncing false] := by
  have h := handleFileChange_structural_resync "/notes" "sort_a2z" (some "/notes/a.md")
    (∅ : Finset String) ⟨"addDir", "/notes/sub"⟩ true (by decide) rfl rfl
  simpa using h

/-- C6: for an `'unlink'`/`'unlinkDir'` event that is not suppressed, if
the event's path is the active file path then the handler dispatches
`setActiveFilePath(undefined)` as its first effect, before the
`initWorkSpace` resync; on any other path this branch dispatches no
active-file-path change at all. -/
theorem handleFileChange_unlink_clears_active (np sortType : String)
    (activeFilePath : Option String) (pending : Finset String)
    (ev : FileChangeEvent) (initThrows : Bool)
    (hnp : np ≠ "")
    (hpending : hasPendingOperations pending = false)
    (hunlink : ev.eventType = "unlink" ∨ ev.eventType = "unlinkDir") :
    (activeFilePath = some ev.filePath →
      ∃ rest, handleFileChange (some np) sortType activeFilePath pending ev initThrows =
          Step.dispatchActiveFilePath none :: rest
        ∧ Step.initWorkSpace np sortType ∈ rest) ∧
    (activeFilePath ≠ some ev.filePath →
      ∀ p, Step.dispatchActiveFilePath p ∉
        handleFileChange (some np) sortType activeFilePath pending ev initThrows) := by
  have hstructural : isStructuralEvent ev.eventType = true := by
    rcases hunlink with h | h <;> simp [isStructuralEvent, h]
  rw [handleFileChange_structural_eq np sortType activeFilePath pending ev initThrows
    hnp hpending hstructural]
  constructor
  · intro heq
    rw [if_pos ⟨hunlink, heq⟩]
    refine ⟨_, rfl, ?_⟩
    cases initThrows <;> simp
  · intro hne p
    rw [if_neg (fun h => hne h.2)]
    cases initThrows <;> simp

/-- C6 witness: a concrete `'unlink'` of the active file dispatches the
clear first and then resyncs; the same event on another path does not
dispatch. -/
theorem handleFileChange_unlink_clears_active_witness :
    (∃ rest, handleFileChange (some "/notes") "sort_a2z" (some "/notes/a.md") (∅ : Finset String)
          ⟨"unlink", "/notes/a.md"⟩ false =
        Step.dispatchActiveFilePath none :: rest
      ∧ Step.initWorkSpace "/notes" "sort_a2z" ∈ rest) ∧
    (∀ p, Step.dispatchActiveFilePath p ∉
      handleFileChange (some "/notes") "sort_a2z" (some "/notes/a.md") (∅ : Finset String)
        ⟨"unlink", "/notes/b.md"⟩ false) :=
  ⟨(handleFileChange_unlink_clears_active "/notes" "sort_a2z" (some "/notes/a.md")
      (∅ : Finset String) ⟨"unlink", "/notes/a.md"⟩ false (by decide) rfl (Or.inl rfl)).1 rfl,
   (handleFileChange_unlink_clears_active "/notes" "sort_a2z" (some "/notes/a.md")
      (∅ : Finset String) ⟨"unlink", "/notes/b.md"⟩ false (by decide) rfl (Or.inl rfl)).2
      (by decide)⟩

/-- C8: the slash-command suggestion key handler returns `true`,
prevents the default action and performs exactly one
`chain().focus().insertContent('\n').run()` editor call on Shift+Enter,
and for every other key returns `false` with no `preventDefault` and no
editor action. -/
theorem commandSuggestionOnKeyDown_shift_enter (ev : SuggestionKeyEvent) :
    (ev.key = "Enter" ∧ ev.shiftKey = true →
      commandSuggestionOnKeyDown ev =
        { handled := true, preventDefaultCalled := true, editorInsertions := ["\n"] }) ∧
    (¬(ev.key = "Enter" ∧ ev.shiftKey = true) →
      commandSuggestionOnKeyDown ev =
        { handled := false, preventDefaultCalled := false, editorInsertions := [] }) := by
  constructor
  · intro h
    unfold commandSuggestionOnKeyDown
    rw [if_pos h]
  · intro h
    unfold commandSuggestionOnKeyDown
    rw [if_neg h]

/-- C8 witness: Shift+Enter inserts a newline and is handled; plain
Enter is ignored. -/
theorem commandSuggestionOnKeyDown_shift_enter_witness :
    commandSuggestionOnKeyDown ⟨"Enter", true⟩ =
      { handled := true, preventDefaultCalled := true, editorInsertions := ["\n"] } ∧
    commandSuggestionOnKeyDown ⟨"Enter", false⟩ =
      { handled := false, preventDefaultCalled := false, editorInsertions := [] } :=
  ⟨(commandSuggestionOnKeyDown_shift_enter ⟨"Enter", true⟩).1 ⟨rfl, rfl⟩,
   (commandSuggestionOnKeyDown_shift_enter ⟨"Enter", false⟩).2 (by simp)⟩

/-- Helper: `findNodeById` agrees with a `find?` over the depth-first
preorder flattening of the forest. -/
theorem findNodeById_eq_find? : ∀ (tree : List NotesTreeNode) (nodeId : String),
    findNodeById tree nodeId = (preorderList tree).find? (fun n => n.id == nodeId)
  | [], _ => by simp [findNodeById, preorderList]
  | n :: rest, nodeId => by
    rw [findNodeById, preorderList]
    by_cases h : n.id = nodeId
    · rw [if_pos h]
      rw [List.find?_cons_of_pos _ (by simp [h])]
    · rw [if_neg h]
      rw [List.find?_cons_of_neg _ (by simp [h])]
      rw [List.find?_append]
      rw [← findNodeById_eq_find? n.children nodeId, ← findNodeById_eq_find? rest nodeId]
      cases findNodeById n.children nodeId <;> simp
termination_by tree _ => sizeOf tree
decreasing_by
  all_goals cases n
  all_goals simp
  all_goals omega

/-- C9: `findNodeById` returns the first node whose `id` matches in
depth-first preorder (each node before its children, siblings in list
order), and returns `null` exactly when no node of the forest — roots
or descendants — carries that `id`. -/
theorem findNodeById_preorder_first (tree : List NotesTreeNode) (nodeId : String) :
    findNodeById tree nodeId = (preorderList tree).find? (fun n => n.id == nodeId) ∧
    (findNodeById tree nodeId = none ↔ ∀ n ∈ preorderList tree, n.id ≠ nodeId) := by
  refine ⟨findNodeById_eq_find? tree nodeId, ?_⟩
  rw [findNodeById_eq_find? tree nodeId]
  rw [List.find?_eq_none]
  simp

/-- Helper: a string extended on the right is truthy when it contains a
`'/'` separator. -/
theorem jsTruthy_append_slash (a b : String) : jsTruthy (a ++ "/" ++ b) = true := by
  simp only [jsTruthy, bne_iff_ne, ne_eq]
  intro h
  have hd := congrArg String.data h
  simp at hd

/-- Helper: every string is a JS prefix of itself followed by anything. -/
theorem jsStartsWith_append (a b : String) : jsStartsWith (a ++ b) a = true := by
  simp [jsStartsWith]

/-- Helper: dropping the length of the left part of a concatenation
yields the right part. -/
theorem jsSubstringFrom_append (a b : String) :
    jsSubstringFrom (a ++ b) (jsLength a) = b := by
  show (⟨(a.data ++ b.data).drop a.data.length⟩ : String) = b
  rw [List.drop_left]

/-- C7: `handleRenameNode` renames only when the node exists and its
name differs from the requested one; after a successful rename of a
file whose old path is the active file path, the active path becomes
the node's new path; after a successful rename of a folder whose old
path followed by `'/'` prefixes the active path, the active path is
remapped to the new folder path with the same relative suffix; in every
other case the active file path is unchanged. -/
theorem handleRenameNode_active_path (tree : List NotesTreeNode) (nodeId newName : String)
    (activeFilePath : Option String) (renamedNode : NotesTreeNode) :
    (findNodeById tree nodeId = none →
      handleRenameNode tree nodeId newName activeFilePath renamedNode =
        ⟨false, activeFilePath⟩) ∧
    (∀ node, findNodeById tree nodeId = some node → node.name = newName →
      handleRenameNode tree nodeId newName activeFilePath renamedNode =
        ⟨false, activeFilePath⟩) ∧
    (∀ node, findNodeById tree nodeId = some node → node.name ≠ newName →
      renamedNode.type = "file" → activeFilePath = some node.externalPath →
      handleRenameNode tree nodeId newName activeFilePath renamedNode =
        ⟨true, some renamedNode.externalPath⟩) ∧
    (∀ node suffix, findNodeById tree nodeId = some node → node.name ≠ newName →
      renamedNode.type = "folder" →
      activeFilePath = some (node.externalPath ++ "/" ++ suffix) →
      handleRenameNode tree nodeId newName activeFilePath renamedNode =
        ⟨true, some (renamedNode.externalPath ++ "/" ++ suffix)⟩) ∧
    (∀ node, findNodeById tree nodeId = some node → node.name ≠ newName →
      ¬(renamedNode.type = "file" ∧ activeFilePath = some node.externalPath) →
      ¬(renamedNode.type = "folder" ∧ ∃ afp, activeFilePath = some afp ∧
          jsStartsWith afp (node.externalPath ++ "/") = true) →
      handleRenameNode tree nodeId newName activeFilePath renamedNode =
        ⟨true, activeFilePath⟩) := by
  refine ⟨?_, ?_, ?_, ?_, ?_⟩
  · intro hfind
    simp [handleRenameNode, hfind]
  · intro node hfind hname
    simp [handleRenameNode, hfind, hname]
  · intro node hfind hname htyp hactive
    simp [handleRenameNode, hfind, hname, htyp, hactive]
  · intro node suffix hfind hname htyp hactive
    have hfile : ¬(renamedNode.type = "file" ∧ activeFilePath = some node.externalPath) := by
      rintro ⟨h1, -⟩
      rw [htyp] at h1
      exact absurd h1 (by decide)
    have hcond : renamedNode.type = "folder"
        ∧ jsTruthy (node.externalPath ++ "/" ++ suffix) = true
        ∧ jsStartsWith (node.externalPath ++ "/" ++ suffix) (node.externalPath ++ "/") = true :=
      ⟨htyp, jsTruthy_append_slash _ _, jsStartsWith_append (node.externalPath ++ "/") suffix⟩
    have hsub : jsSubstringFrom (node.externalPath ++ "/" ++ suffix)
        (jsLength node.externalPath) = "/" ++ suffix := by
      rw [String.append_assoc]
      exact jsSubstringFrom_append node.externalPath ("/" ++ suffix)
    simp only [handleRenameNode, hfind, if_neg hname, if_neg hfile, hactive, if_pos hcond, hsub]
    have hfile2 : ¬(renamedNode.type = "file"
        ∧ some (node.externalPath ++ "/" ++ suffix) = some node.externalPath) := by
      rintro ⟨h1, -⟩
      rw [htyp] at h1
      exact absurd h1 (by decide)
    rw [if_neg hfile2, ← String.append_assoc]
  · intro node hfind hname hfile hfolder
    cases hafp : activeFilePath with
    | none => simp [handleRenameNode, hfind, hname, hfile, hafp]
    | some afp =>
      rw [hafp] at hfile
      have hcond : ¬(renamedNode.type = "folder" ∧ jsTruthy afp = true
          ∧ jsStartsWith afp (node.externalPath ++ "/") = true) := by
        rintro ⟨h1, -, h3⟩
        exact hfolder ⟨h1, afp, hafp, h3⟩
      simp [handleRenameNode, hfind, hname, hfile, hafp, hcond]
      intro h1 h2
      exact absurd ⟨h1, by rw [h2]⟩ hfile

/-- C7 witness: renaming a folder that prefixes the active file path
remaps the active path under the new folder path. -/
theorem handleRenameNode_active_path_witness :
    handleRenameNode [NotesTreeNode.mk "id1" "docs" "folder" "/n/docs" []] "id1" "papers"
        (some "/n/docs/a.md") (NotesTreeNode.mk "id1" "papers" "folder" "/n/papers" []) =
      ⟨true, some "/n/papers/a.md"⟩ := by
  have h := (handleRenameNode_active_path [NotesTreeNode.mk "id1" "docs" "folder" "/n/docs" []]
      "id1" "papers" (some "/n/docs/a.md")
      (NotesTreeNode.mk "id1" "papers" "folder" "/n/papers" [])).2.2.2.1
      (NotesTreeNode.mk "id1" "docs" "folder" "/n/docs" []) "a.md"
      (by simp [findNodeById]) (by decide) rfl (by decide)
  exact h.trans (by decide)

/-- Helper: `lastIndexOfBefore` finds the last occurrence: if position
`a` holds `c` and no position strictly between `a` and `stop` does,
the scan from `stop` returns `a`. -/
theorem lastIndexOfBefore_eq_some (text : List Char) (c : Char) (a : Nat)
    (ha : text[a]? = some c) :
    ∀ stop, a < stop → (∀ k, a < k → k < stop → text[k]? ≠ some c) →
      lastIndexOfBefore text c stop = some a := by
  intro stop
  induction stop with
  | zero =>
    intro h _
    exact absurd h (Nat.not_lt_zero a)
  | succ m ih =>
    intro han hk
    by_cases hma : a = m
    · subst hma
      simp [lastIndexOfBefore, ha]
    · have hm : text[m]? ≠ some c := hk m (by omega) (by omega)
      simp only [lastIndexOfBefore, if_neg hm]
      exact ih (by omega) (fun k h1 h2 => hk k h1 (by omega))

/-- C5: on selection (Enter) or dismissal (Escape), the quick panel
deletes search text only for panels opened with the `"@"` or `"/"`
symbol — for every other panel symbol `setInputText` is never called —
and for `"@"`/`"/"` it deletes exactly the current symbol's text (from
the triggering symbol occurrence to the caret), leaving everything
before it, other symbol occurrences included, intact. -/
theorem clearSearchText_only_mentions_and_commands :
    (∀ symbol text caret,
        symbol ∈ (["thinking", "?", "#", "quick-phrases", "mcp", "mcp-prompt",
          "mcp-resource"] : List String) →
        clearSearchText symbol text caret = none) ∧
    (∀ symbol c pre search, deletableSymbolChar symbol = some c → c ∉ search →
        clearSearchText symbol (pre ++ c :: search) (pre.length + 1 + search.length) =
          some pre) := by
  constructor
  · intro symbol text caret h
    fin_cases h <;> rfl
  · intro symbol c pre search hsym hc
    have ha : (pre ++ c :: search)[pre.length]? = some c := by
      rw [List.getElem?_append_right (Nat.le_refl _)]
      simp
    have hlast : lastIndexOfBefore (pre ++ c :: search) c
        (pre.length + 1 + search.length) = some pre.length := by
      apply lastIndexOfBefore_eq_some _ _ _ ha _ (by omega)
      intro k h1 h2 heq
      rw [List.getElem?_append_right (by omega)] at heq
      have h3 : k - pre.length = (k - pre.length - 1) + 1 := by omega
      rw [h3, List.getElem?_cons_succ] at heq
      exact hc (List.getElem?_mem heq)
    simp only [clearSearchText, hsym, hlast]
    rw [List.take_left, List.drop_eq_nil_of_le (by simp; omega), List.append_nil]

/-- C5 witness: with the input `"ab@c /se"` and a commands (`"/"`)
panel, the deletion keeps the prefix — the `'@'` occurrence included —
and a `"thinking"` panel never touches the text. -/
theorem clearSearchText_only_mentions_and_commands_witness :
    clearSearchText "/" ("ab@c ".data ++ '/' :: "se".data)
        ("ab@c ".data.length + 1 + "se".data.length) = some "ab@c ".data ∧
    clearSearchText "thinking" "ab@c /thinking".data 13 = none :=
  ⟨clearSearchText_only_mentions_and_commands.2 "/" '/' "ab@c ".data "se".data rfl (by decide),
   clearSearchText_only_mentions_and_commands.1 "thinking" "ab@c /thinking".data 13 (by decide)⟩
